import Mathlib

/-!
# Verification of the concerto-nom CTO parser

A shallow embedding, in Lean 4, of the parsing code of the `concerto-nom`
repository (a nom-based parser for a Concerto-style schema language).
Each Rust parser of type `Fn(&str) -> IResult<&str, T, E>` is embedded as a
Lean function `List Char → Option (T × List Char)`: `none` stands for any
`Err` outcome (error or incomplete), and `some (v, rest)` for `Ok((rest, v))`.
The nom combinators used by the source (`tag`, `alt`, `preceded`, `tuple`,
`recognize`, `fold_many_m_n`, `many_till`, ...) are reproduced here with the
same semantics, and each source function is translated clause by clause.
-/

set_option maxRecDepth 20000

namespace ConcertoNom

/-- Parser input: the remaining characters of the source text. -/
abbrev Input := List Char

/-- A nom-style parser over `&str`: from remaining input to failure (`none`)
or a parsed value together with the rest of the input. -/
abbrev P (α : Type) : Type := Input → Option (α × Input)

/-- nom `Parser::map`. -/
def pmap (p : P α) (f : α → β) : P β := fun s =>
  match p s with
  | none => none
  | some (a, r) => some (f a, r)

/-- nom `branch::alt` for two alternatives (nested for more): tries `p`,
and on error tries `q` on the same input. -/
def palt (p q : P α) : P α := fun s =>
  match p s with
  | none => q s
  | some x => some x

/-- nom `sequence::pair` / `Parser::and` / binary step of `tuple`. -/
def pand (p : P α) (q : P β) : P (α × β) := fun s =>
  match p s with
  | none => none
  | some (a, r) =>
    match q r with
    | none => none
    | some (b, r2) => some ((a, b), r2)

/-- nom `sequence::preceded`. -/
def ppreceded (p : P α) (q : P β) : P β := pmap (pand p q) Prod.snd

/-- nom `sequence::terminated`. -/
def pterminated (p : P α) (q : P β) : P α := pmap (pand p q) Prod.fst

/-- nom `sequence::delimited`. -/
def pdelimited (pre : P α) (mid : P β) (post : P γ) : P β :=
  pmap (pand pre (pand mid post)) (fun x => x.2.1)

/-- nom `sequence::separated_pair`. -/
def pseparatedPair (p : P α) (sep : P β) (q : P γ) : P (α × γ) :=
  pmap (pand p (pand sep q)) (fun x => (x.1, x.2.2))

/-- nom `combinator::value`. -/
def pvalue (b : β) (p : P α) : P β := pmap p (fun _ => b)

/-- nom `combinator::opt`. -/
def popt (p : P α) : P (Option α) := fun s =>
  match p s with
  | none => some (none, s)
  | some (a, r) => some (some a, r)

/-- nom `combinator::not`: succeeds, consuming nothing, iff `p` fails. -/
def pnot (p : P α) : P Unit := fun s =>
  match p s with
  | none => some ((), s)
  | some _ => none

/-- nom `combinator::recognize`: run `p` and return the consumed slice. -/
def precognize (p : P α) : P Input := fun s =>
  match p s with
  | none => none
  | some (_, r) => some (s.take (s.length - r.length), r)

/-- nom `combinator::eof` at `&str` type: succeeds with `""` only at the end
of input (used by `version_parser`). -/
def peofStr : P Input := fun s =>
  match s with
  | [] => some ([], [])
  | _ => none

/-- nom `bytes::complete::tag`. -/
def ptag (lit : Input) : P Input := fun s =>
  if lit.isPrefixOf s then some (lit, s.drop lit.length) else none

/-- nom `character::complete::char`. -/
def pchar (c : Char) : P Char := fun s =>
  match s with
  | [] => none
  | x :: r => if x = c then some (x, r) else none

/-- nom `character::complete::one_of`. -/
def poneOf (cs : Input) : P Char := fun s =>
  match s with
  | [] => none
  | x :: r => if x ∈ cs then some (x, r) else none

/-- nom `bytes::complete::take_while`: zero or more characters satisfying `f`. -/
def ptakeWhile (f : Char → Bool) : P Input := fun s =>
  let t := s.takeWhile f
  some (t, s.drop t.length)

/-- One-or-more variant (nom `digit1`, `alpha1`, `space1`, ... share this shape). -/
def ptakeWhile1 (f : Char → Bool) : P Input := fun s =>
  let t := s.takeWhile f
  if t.isEmpty then none else some (t, s.drop t.length)

/-- ASCII decimal digit, the character class of nom `digit1` / `one_of("1234567890")`. -/
def isAsciiDigit (c : Char) : Bool := '0' ≤ c && c ≤ '9'

/-- ASCII letter, the character class of nom `alpha1`. -/
def isAsciiAlpha (c : Char) : Bool := ('a' ≤ c && c ≤ 'z') || ('A' ≤ c && c ≤ 'Z')

/-- ASCII letter or digit, the class of nom `alphanumeric0` and of
`nom::character::is_alphanumeric` as used on ASCII input. -/
def isAsciiAlphanum (c : Char) : Bool := isAsciiDigit c || isAsciiAlpha c

/-- The class of nom `space0`/`space1`: space and horizontal tab. -/
def isNomSpace (c : Char) : Bool := c = ' ' || c = '\t'

/-- The class of nom `multispace1`: space, tab, carriage return, line feed. -/
def isNomMultispace (c : Char) : Bool := c = ' ' || c = '\t' || c = '\r' || c = '\n'

/-- nom `character::complete::space0`. -/
def pspace0 : P Input := ptakeWhile isNomSpace

/-- nom `character::complete::space1`. -/
def pspace1 : P Input := ptakeWhile1 isNomSpace

/-- nom `character::complete::multispace1`. -/
def pmultispace1 : P Input := ptakeWhile1 isNomMultispace

/-- nom `character::complete::digit1`. -/
def pdigit1 : P Input := ptakeWhile1 isAsciiDigit

/-- nom `character::complete::alpha1`. -/
def palpha1 : P Input := ptakeWhile1 isAsciiAlpha

/-- nom `character::complete::alphanumeric0`. -/
def palphanumeric0 : P Input := ptakeWhile isAsciiAlphanum

/-- Numeric value of a run of ASCII digits (how Rust's `from_str_radix(_, 10)`
reads the digit part). -/
def natOfDigits (ds : Input) : Nat := ds.foldl (fun a c => a * 10 + (c.toNat - 48)) 0

/-- nom `character::complete::u128`: one or more digits with an overflow
check against the `u128` range. -/
def pu128 : P Nat := fun s =>
  match pdigit1 s with
  | none => none
  | some (ds, r) =>
    let v := natOfDigits ds
    if v < 2 ^ 128 then some (v, r) else none

/-- nom `multi::fold_many_m_n(0, max, p, init, g)` as used by every property
parser of the source (the minimum is `0` at every call site). Mirrors nom's
infinite-loop protection: a successful parse that consumes nothing is an error. -/
def foldManyMN0 (max : Nat) (p : P α) (g : β → α → β) (acc : β) : P β := fun s =>
  match max with
  | 0 => some (acc, s)
  | m + 1 =>
    match p s with
    | none => some (acc, s)
    | some (a, r) =>
      if r.length < s.length then foldManyMN0 m p g (g acc a) r else none

/-! ## `src/parser/common`: token and boolean (`common/mod.rs`) -/

/-- `token_parser` (= `common::token` of the property modules): one letter
followed by zero or more letters/digits, `recognize(pair(alpha1, alphanumeric0))`. -/
def token : P Input := precognize (pand palpha1 palphanumeric0)

/-- `boolean_parser` (= `common::boolean_value`):
`alt((value(true, tag("true")), value(false, tag("false"))))`. -/
def boolean_value : P Bool :=
  palt (pvalue true (ptag "true".data)) (pvalue false (ptag "false".data))

/-! ## `src/parser/version.rs` -/

/-- `ParsedVersion` (also `VersionNumber` in a sibling snapshot): the three
numeric components; omitted ones default to 0 via the `From` impls. -/
structure ParsedVersion where
  major : Nat
  minor : Nat
  patch : Nat
deriving Repr, DecidableEq

/-- `ModelVersion` (`SemanticVersion` in the sibling snapshot): a version
number with an optional pre-release label. -/
inductive ModelVersion where
  | version : ParsedVersion → ModelVersion
  | versionWithRelease : ParsedVersion → Input → ModelVersion
deriving Repr, DecidableEq

/-- `major_only_version_parser`: `digit1.and_then(u128)`, minor and patch 0. -/
def major_only_version : P ParsedVersion :=
  pmap pu128 (fun m => ⟨m, 0, 0⟩)

/-- `major_minor_version_parser`: `tuple((u128, tag("."), u128))`, patch 0. -/
def major_minor_version : P ParsedVersion :=
  pmap (pand pu128 (pand (ptag ".".data) pu128)) (fun x => ⟨x.1, x.2.2, 0⟩)

/-- `major_minor_patch_version_parser`: `tuple((u128, tag("."), u128, tag("."), u128))`. -/
def major_minor_patch_version : P ParsedVersion :=
  pmap (pand pu128 (pand (ptag ".".data) (pand pu128 (pand (ptag ".".data) pu128))))
    (fun x => ⟨x.1, x.2.2.1, x.2.2.2.2⟩)

/-- `version_number_parser`: `alt((major_minor_patch, major_minor, major_only))`. -/
def version_number : P ParsedVersion :=
  palt major_minor_patch_version (palt major_minor_version major_only_version)

/-- `pre_release_allowed_parser`: `take_while(|c| is_alphanumeric(c) || ".-".contains(c))`. -/
def pre_release_allowed : P Input :=
  ptakeWhile (fun c => isAsciiAlphanum c || c = '.' || c = '-')

/-- The `leading_no_zero` alternation of `pre_release_parser`:
`alt((tag("1"), ..., tag("9"), tag("-"), tag("."), alpha1))`. -/
def leading_no_zero : P Input :=
  palt (ptag "1".data) (palt (ptag "2".data) (palt (ptag "3".data)
    (palt (ptag "4".data) (palt (ptag "5".data) (palt (ptag "6".data)
      (palt (ptag "7".data) (palt (ptag "8".data) (palt (ptag "9".data)
        (palt (ptag "-".data) (palt (ptag ".".data) palpha1))))))))))

/-- The `leading_single_zero` branch of `pre_release_parser`:
`pair(tag("0"), not(tag("0")))`. -/
def leading_single_zero : P (Input × Unit) :=
  pand (ptag "0".data) (pnot (ptag "0".data))

/-- The `combined` alternation inside `pre_release_parser`: either a non-zero
leading alternative or a single leading zero, each followed by the run of
allowed pre-release characters, `recognize`d as one slice. -/
def pre_release_combined : P Input :=
  palt (precognize (pand leading_no_zero pre_release_allowed))
    (precognize (pand leading_single_zero pre_release_allowed))

/-- `pre_release_parser`: `preceded(tag("-"), combined)`. Its doc comment:
"Numeric identifiers MUST NOT include leading zeros, single zero is fine"
(semver spec item 9). -/
def pre_release : P Input := ppreceded (ptag "-".data) pre_release_combined

/-- `version_parser`: `version_number_parser.and(alt((pre_release_parser, eof)))`,
mapping an empty label (the `eof` case) to `Version` and a non-empty one to
`VersionWithRelease`. -/
def version_value : P ModelVersion := fun s =>
  match (pand version_number (palt pre_release peofStr)) s with
  | none => none
  | some ((ver, maybePre), r) =>
    if maybePre.length = 0 then some (.version ver, r)
    else some (.versionWithRelease ver maybePre, r)

/-! ## `src/parser/namespace.rs` -/

/-- `FullyQualifiedName`: dotted namespace name, version, trailing type name. -/
structure FullyQualifiedName where
  name : Input
  version : ModelVersion
  type_name : Input
deriving Repr, DecidableEq

/-- Modelled from the spec: `pre_release_token_parser`, imported by
`namespace.rs` from its `version` module but absent from the sources at hand
(only this caller survives). Per §4.2 of the specification the suffix after
the hyphen is "re-parsed through the ordinary pre-release grammar to validate
its own leading-character rule", i.e. it is the body of `pre_release_parser`
without the leading `-`: the `combined` alternation above. -/
def pre_release_token : P Input := pre_release_combined

/-- The `many_till(anychar, pair(tag("."), token_parser))` scan inside
`prerelease_dot_token_parser`: starting at each position (consuming one
`anychar` per failed attempt), try `pair(tag("."), token)`; produce the first
matching token. -/
def find_dot_token : Input → Option Input
  | [] => none
  | c :: rest =>
    match (pand (ptag ".".data) token) (c :: rest) with
    | some ((_, tok), _) => some tok
    | none => find_dot_token rest

/-- `prerelease_dot_token_parser`: find a `.`-separated trailing token, then
parse the whole suffix through the pre-release grammar, and split it
`token.len() + 1` characters before its end (the `-1` accounts for the dot). -/
def prerelease_dot_token : P (Input × Input) := fun s =>
  match find_dot_token s with
  | none => none
  | some tok =>
    match pre_release_token s with
    | none => none
    | some (preWithToken, rest) =>
      let endOfPre := preWithToken.length - tok.length - 1
      some ((preWithToken.take endOfPre, tok), rest)

/-- `fqn_no_prerelease_parser`:
`tuple((token, tag("@"), version_number, tag("."), token))`. -/
def fqn_no_prerelease : P FullyQualifiedName :=
  pmap (pand token (pand (ptag "@".data) (pand version_number
      (pand (ptag ".".data) token))))
    (fun x => ⟨x.1, .version x.2.2.1, x.2.2.2.2⟩)

/-- `fqn_with_prerelease_parser`:
`tuple((token, tag("@"), version_number, tag("-"), prerelease_dot_token_parser))`. -/
def fqn_with_prerelease : P FullyQualifiedName :=
  pmap (pand token (pand (ptag "@".data) (pand version_number
      (pand (ptag "-".data) prerelease_dot_token))))
    (fun x => ⟨x.1, .versionWithRelease x.2.2.1 x.2.2.2.2.1, x.2.2.2.2.2⟩)

/-- `fqn_parser`: `alt((fqn_with_prerelease_parser, fqn_no_prerelease_parser))`. -/
def fqn : P FullyQualifiedName := palt fqn_with_prerelease fqn_no_prerelease

/-! ## `src/parser/common/numeric.rs` -/

/-- `positive_decimal_value`: `alt((recognize(pair(char('+'), digit1)), digit1))`
(the first branch is labeled "ExplicitlyPositiveDecimal" in the source). -/
def positive_decimal_value : P Input :=
  palt (precognize (pand (pchar '+') pdigit1)) pdigit1

/-- `negative_decimal_value`: `recognize(pair(char('-'), digit1))`. -/
def negative_decimal_value : P Input := precognize (pand (pchar '-') pdigit1)

/-- `decimal_value`: `alt((negative_decimal_value, positive_decimal_value))`. -/
def decimal_value : P Input := palt negative_decimal_value positive_decimal_value

/-- How Rust's `i32::from_str_radix(s, 10)` / `i64::from_str_radix(s, 10)` read
the text matched by the decimal parsers: an optional sign then digits. -/
def intOfDecimal (ds : Input) : Int :=
  match ds with
  | [] => 0
  | c :: t =>
    if c = '-' then -(natOfDigits t : Int)
    else if c = '+' then (natOfDigits t : Int)
    else (natOfDigits (c :: t) : Int)

/-- `positive_integer_value`: `map_res(positive_decimal_value, i32::from_str_radix)`,
any conversion failure (out of `i32` range) turned into a parse error. -/
def positive_integer_value : P Int := fun s =>
  match positive_decimal_value s with
  | none => none
  | some (ds, r) =>
    let v := intOfDecimal ds
    if v ≤ 2 ^ 31 - 1 then some (v, r) else none

/-- `integer_value`: `map_res(decimal_value, i32::from_str_radix)` with the
same error conversion; fails outside the `i32` range. -/
def integer_value : P Int := fun s =>
  match decimal_value s with
  | none => none
  | some (ds, r) =>
    let v := intOfDecimal ds
    if -(2 ^ 31) ≤ v && v ≤ 2 ^ 31 - 1 then some (v, r) else none

/-- `long_value`: like `integer_value` but at the `i64` range. -/
def long_value : P Int := fun s =>
  match decimal_value s with
  | none => none
  | some (ds, r) =>
    let v := intOfDecimal ds
    if -(2 ^ 63) ≤ v && v ≤ 2 ^ 63 - 1 then some (v, r) else none

/-- Case-insensitive ASCII lowering, for nom `tag_no_case`. -/
def asciiLower (c : Char) : Char :=
  if 'A' ≤ c && c ≤ 'Z' then Char.ofNat (c.toNat + 32) else c

/-- nom `bytes::complete::tag_no_case`. -/
def ptagNoCase (lit : Input) : P Input := fun s =>
  let t := s.take lit.length
  if t.map asciiLower = lit.map asciiLower then some (t, s.drop lit.length) else none

/-- `floating_point_value`: the five `alt` branches of the source, in order
(`.42e42`; `42e42 or 42.42e42`; `42. or 42.42`; signed `inf`/`infinity`; `nan`). -/
def floating_point_value : P Input :=
  palt (precognize (pand (pchar '.') (pand pdigit1
      (popt (pand (poneOf "eE".data) decimal_value)))))
    (palt (precognize (pand decimal_value (pand
        (popt (ppreceded (pchar '.') pdigit1))
        (pand (poneOf "eE".data) decimal_value))))
      (palt (precognize (pand decimal_value (pand (pchar '.') (popt pdigit1))))
        (palt (precognize (pand (popt (poneOf "+-".data))
            (palt (ptagNoCase "infinity".data) (ptagNoCase "inf".data))))
          (precognize (ptagNoCase "nan".data)))))

/-- `double_value`: `map_res(floating_point_value, f64::from_str)`. Every text
matched by `floating_point_value` is a valid Rust float literal, so the
conversion never fails; the payload is kept as the matched literal text here
(the `f64` bit pattern itself is outside this embedding). -/
def double_value : P Input := floating_point_value

/-! ## `src/parser/common/string.rs` -/

/-- The backslash character (kept out of character-literal form). -/
def bslash : Char := Char.ofNat 92

/-- The single-quote character. -/
def squote : Char := Char.ofNat 39

/-- The double-quote character. -/
def dquote : Char := Char.ofNat 34

/-- The opening curly brace. -/
def lcurly : Char := Char.ofNat 123

/-- The closing curly brace. -/
def rcurly : Char := Char.ofNat 125

/-- `delimited_hex`: `preceded(char('u'), delimited(char('{'), hex, char('}')))`
with `hex = take_while_m_n(1, 6, is_ascii_hexdigit)`. -/
def delimited_hex : P Input :=
  let hex : P Input := fun s =>
    let t := (s.takeWhile (fun c => c.isDigit || ('a' ≤ c && c ≤ 'f') || ('A' ≤ c && c ≤ 'F'))).take 6
    if t.isEmpty then none else some (t, s.drop t.length)
  ppreceded (pchar 'u') (pdelimited (pchar lcurly) hex (pchar rcurly))

/-- Numeric value of a run of ASCII hex digits. -/
def natOfHexDigits (ds : Input) : Nat :=
  ds.foldl (fun a c =>
    a * 16 + (if c.isDigit then c.toNat - 48
      else if 'a' ≤ c && c ≤ 'f' then c.toNat - 87 else c.toNat - 55)) 0

/-- `u32_value`: hex digits converted with `u32::from_str_radix(_, 16)`;
at most six hex digits always fit in `u32`, so only the scalar check follows. -/
def u32_value : P Nat := pmap delimited_hex natOfHexDigits

/-- `unicode_char`: `map_opt(u32_value, char::from_u32)` — fails unless the
value is a Unicode scalar value. -/
def unicode_char : P Char := fun s =>
  match u32_value s with
  | none => none
  | some (n, r) => if n.isValidChar then some (Char.ofNat n, r) else none

/-- `escaped_char`: backslash then one of the escape alternatives, in source
order (`unicode_char` first, then `n r t b f \\ / " '`). -/
def escaped_char : P Char :=
  ppreceded (pchar bslash)
    (palt unicode_char
      (palt (pvalue '\n' (pchar 'n'))
        (palt (pvalue '\r' (pchar 'r'))
          (palt (pvalue '\t' (pchar 't'))
            (palt (pvalue (Char.ofNat 8) (pchar 'b'))
              (palt (pvalue (Char.ofNat 12) (pchar 'f'))
                (palt (pvalue bslash (pchar bslash))
                  (palt (pvalue '/' (pchar '/'))
                    (palt (pvalue dquote (pchar dquote))
                      (pvalue squote (pchar squote)))))))))))

/-- `escaped_whitespace`: `preceded(char('\\'), multispace1)`. -/
def escaped_whitespace : P Input := ppreceded (pchar bslash) pmultispace1

/-- `StringFragment`. -/
inductive StringFragment where
  | literal : Input → StringFragment
  | escaped : Char → StringFragment
  | escapedWS : StringFragment
deriving Repr, DecidableEq

/-- `bytes::streaming::is_not(bad)`: the longest run of characters outside
`bad`; an empty run is an error, and a run reaching the end of input is
`Incomplete` (both map to `none` in this embedding). -/
def pisNotStreaming (bad : Input) : P Input := fun s =>
  let t := s.takeWhile (fun c => !(c ∈ bad))
  if t.length = s.length then none
  else if t.isEmpty then none
  else some (t, s.drop t.length)

/-- The `fragment` alternation of the quoted-string/regex grammars, shared up
to the set of characters that must be escaped: a non-empty literal chunk, an
escaped character, or escaped whitespace. (The `verify(!s.is_empty())` wrapper
of the source is subsumed by `is_not` requiring a non-empty match.) -/
def stringFragment (bad : Input) : P StringFragment :=
  palt (pmap (pisNotStreaming bad) .literal)
    (palt (pmap escaped_char .escaped) (pvalue .escapedWS escaped_whitespace))

/-- The accumulation step of `fold_many0` in `build_string`. -/
def pushFragment (acc : Input) : StringFragment → Input
  | .literal t => acc ++ t
  | .escaped c => acc ++ [c]
  | .escapedWS => acc

/-- nom `multi::fold_many0` on a fragment parser, fuelled by the input length
(sufficient because every successful fragment consumes input, see
`string_fragment_progress`); like nom, a zero-length match is an error. -/
def foldMany0Aux (p : P StringFragment) : Nat → Input → Input → Option (Input × Input)
  | 0, _, _ => none
  | fuel + 1, acc, s =>
    match p s with
    | none => some (acc, s)
    | some (a, r) =>
      if r.length < s.length then foldMany0Aux p fuel (pushFragment acc a) r else none

/-- `build_string`: `fold_many0(fragment, String::new, push)`. -/
def build_string (bad : Input) : P Input := fun s =>
  foldMany0Aux (stringFragment bad) (s.length + 1) [] s

/-- `single_quoted_string`: `delimited(char('\''), build_string, char('\''))`
with `'` and `\` as the characters requiring escape. -/
def single_quoted_string : P Input :=
  pdelimited (pchar squote) (build_string [squote, bslash]) (pchar squote)

/-- `double_quoted_string`: same with `"` delimiters. -/
def double_quoted_string : P Input :=
  pdelimited (pchar dquote) (build_string [dquote, bslash]) (pchar dquote)

/-- `string_value`: `alt((single_quoted_string, double_quoted_string))`. -/
def string_value : P Input := palt single_quoted_string double_quoted_string

/-- `regex_value`: the same grammar delimited by `/.../`, with `/` and `\`
requiring escape. -/
def regex_value : P Input :=
  pdelimited (pchar '/') (build_string ['/', bslash]) (pchar '/')

/-! ## `src/parser/property/internal.rs` -/

/-- `Ranged<T>`: the two optional bounds of a `[a?,b?]` range (`end` renamed
`stop`, `end` being a Lean keyword). -/
structure Ranged (α : Type) where
  start : Option α
  stop : Option α
deriving Repr, DecidableEq

/-- `ranged_value(input, keyword, parser)`: `keyword = [` then one of
`full`, `only_start`, `only_end` (tried in that order), then `]`, with
`space0` slack around the pieces. -/
def ranged_value (keyword : Input) (p : P α) : P (Ranged α) :=
  let sep : P Unit := pvalue () (pand pspace0 (pand (pchar ',') pspace0))
  let full : P (Ranged α) := pmap (pseparatedPair p sep p) (fun x => ⟨some x.1, some x.2⟩)
  let onlyStart : P (Ranged α) := pmap (pterminated p sep) (fun a => ⟨some a, none⟩)
  let onlyEnd : P (Ranged α) := pmap (ppreceded sep p) (fun b => ⟨none, some b⟩)
  pdelimited
    (pand (ptag keyword) (pand pspace0 (pand (pchar '=') (pand pspace0 (pand (pchar '[') pspace0)))))
    (palt full (palt onlyStart onlyEnd))
    (pand pspace0 (pchar ']'))

/-- `primitive_property(primitive_type)`: optional leading whitespace, `o`,
the type's tag word, an optional `[ ]` array marker (the array alternative is
tried first), then the property-name token; yields `(name, is_array)`. -/
def primitive_property (typeTag : Input) : P (Input × Bool) :=
  let single : P Bool :=
    pvalue false (pand pspace0 (pand (pchar 'o') (pand pspace0 (pand (ptag typeTag) pspace0))))
  let arrayT : P Bool :=
    pvalue true (pand pspace0 (pand (pchar 'o') (pand pspace0 (pand (ptag typeTag)
      (pand pspace0 (pand (pchar '[') (pand pspace0 (pand (pchar ']') pspace0))))))))
  pmap (pand (palt arrayT single) token) (fun x => (x.2, x.1))

/-- The recurring `default = <value>` prefix:
`tuple((keywords::default, space0, char('='), space0))`. -/
def default_prefix : P Unit :=
  pvalue () (pand (ptag "default".data) (pand pspace0 (pand (pchar '=') pspace0)))

/-! ## `src/parser/property/string_property.rs` -/

/-- `StringRegexValidator`. -/
structure StringRegexValidator where
  pattern : Input
  flags : Input
deriving Repr, DecidableEq

/-- `StringLengthValidator` (bounds are `i32`). -/
structure StringLengthValidator where
  min_length : Option Int
  max_length : Option Int
deriving Repr, DecidableEq

/-- `StringProperty`. -/
structure StringProperty where
  class_name : Input
  name : Input
  is_optional : Bool
  is_array : Bool
  default_value : Option Input
  regex_validator : Option StringRegexValidator
  length_validator : Option StringLengthValidator
deriving Repr, DecidableEq

/-- `StringMetaProperty`. -/
inductive StringMetaProperty where
  | regexV : StringRegexValidator → StringMetaProperty
  | defaultV : Input → StringMetaProperty
  | lengthV : StringLengthValidator → StringMetaProperty
  | optionalF : StringMetaProperty
deriving Repr, DecidableEq

/-- `string_default_value`: `preceded(default =, string_value)`. -/
def string_default_value : P Input := ppreceded default_prefix string_value

/-- `string_regex_validator`: `preceded(regex =, regex_value)`, empty flags. -/
def string_regex_validator : P StringRegexValidator :=
  pmap (ppreceded (pand (ptag "regex".data) (pand pspace0 (pand (pchar '=') pspace0)))
      regex_value)
    (fun s => ⟨s, []⟩)

/-- `string_length_validator`: `ranged_value(keywords::length, positive_integer_value)`,
`Ranged` start/end becoming min/max. -/
def string_length_validator : P StringLengthValidator :=
  pmap (ranged_value "length".data positive_integer_value) (fun r => ⟨r.start, r.stop⟩)

/-- The `property_meta` alternation of `string_property`:
`alt((length, regex, default, optional))`, each preceded by `space1`. -/
def string_property_meta : P StringMetaProperty :=
  palt (pmap (ppreceded pspace1 string_length_validator) .lengthV)
    (palt (pmap (ppreceded pspace1 string_regex_validator) .regexV)
      (palt (pmap (ppreceded pspace1 string_default_value) .defaultV)
        (pvalue .optionalF (ppreceded pspace1 (ptag "optional".data)))))

/-- The `for meta_prop in meta_props` assignment loop of `string_property`. -/
def applyStringMeta (p : StringProperty) : StringMetaProperty → StringProperty
  | .defaultV x => { p with default_value := some x }
  | .regexV x => { p with regex_validator := some x }
  | .lengthV x => { p with length_validator := some x }
  | .optionalF => { p with is_optional := true }

/-- `string_property`: the primitive-property header, then
`fold_many_m_n(0, 4, property_meta, ...)` collecting at most four
metaproperties, folded into the freshly initialised property ("If a meta
property is defined twice, second one will overwrite the first. Meta property
parser will only run four times."). -/
def string_property : P StringProperty :=
  pmap (pand (primitive_property "String".data)
      (foldManyMN0 4 string_property_meta (fun acc m => acc ++ [m]) []))
    (fun x =>
      x.2.foldl applyStringMeta
        ⟨"StringProperty".data, x.1.1, false, x.1.2, none, none, none⟩)

/-! ## `src/parser/property/boolean_property.rs` -/

/-- `BooleanProperty`. -/
structure BooleanProperty where
  class_name : Input
  name : Input
  is_optional : Bool
  is_array : Bool
  default_value : Option Bool
deriving Repr, DecidableEq

/-- `BooleanMetaProperty`. -/
inductive BooleanMetaProperty where
  | defaultV : Bool → BooleanMetaProperty
  | optionalF : BooleanMetaProperty
deriving Repr, DecidableEq

/-- `boolean_default_value`: `preceded(default =, boolean_value)`. -/
def boolean_default_value : P Bool := ppreceded default_prefix boolean_value

/-- The `property_meta` alternation of `boolean_property`: `alt((default, optional))`. -/
def boolean_property_meta : P BooleanMetaProperty :=
  palt (pmap (ppreceded pspace1 boolean_default_value) .defaultV)
    (pvalue .optionalF (ppreceded pspace1 (ptag "optional".data)))

/-- The assignment loop of `boolean_property`. -/
def applyBooleanMeta (p : BooleanProperty) : BooleanMetaProperty → BooleanProperty
  | .defaultV x => { p with default_value := some x }
  | .optionalF => { p with is_optional := true }

/-- `boolean_property`: header then `fold_many_m_n(0, 2, property_meta, ...)`. -/
def boolean_property : P BooleanProperty :=
  pmap (pand (primitive_property "Boolean".data)
      (foldManyMN0 2 boolean_property_meta (fun acc m => acc ++ [m]) []))
    (fun x =>
      x.2.foldl applyBooleanMeta ⟨"BooleanProperty".data, x.1.1, false, x.1.2, none⟩)

/-! ## `src/parser/property/long_property.rs` -/

/-- `LongDomainValidator` (`i64` bounds). -/
structure LongDomainValidator where
  lower : Option Int
  upper : Option Int
deriving Repr, DecidableEq

/-- `LongProperty`: note this snapshot carries neither `is_optional` nor
`is_array` — only the name, the default and the domain validator. -/
structure LongProperty where
  name : Input
  default_value : Option Int
  domain_validator : Option LongDomainValidator
deriving Repr, DecidableEq

/-- `LongMetaProperty`: only `Default` and `Domain`; there is no `Optional`. -/
inductive LongMetaProperty where
  | defaultV : Int → LongMetaProperty
  | domainV : LongDomainValidator → LongMetaProperty
deriving Repr, DecidableEq

/-- `long_default_value`: `preceded(default =, long_value)`. -/
def long_default_value : P Int := ppreceded default_prefix long_value

/-- `long_domain_validator`: `ranged_value(keywords::range, long_value)`. -/
def long_domain_validator : P LongDomainValidator :=
  pmap (ranged_value "range".data long_value) (fun r => ⟨r.start, r.stop⟩)

/-- The `property_meta` alternation of `long_property`: `alt((domain, default))`
— the `optional` keyword is not among the alternatives. -/
def long_property_meta : P LongMetaProperty :=
  palt (pmap (ppreceded pspace1 long_domain_validator) .domainV)
    (pmap (ppreceded pspace1 long_default_value) .defaultV)

/-- The assignment loop of `long_property`. -/
def applyLongMeta (p : LongProperty) : LongMetaProperty → LongProperty
  | .defaultV x => { p with default_value := some x }
  | .domainV x => { p with domain_validator := some x }

/-- `long_property`: header then `fold_many_m_n(0, 2, property_meta, ...)`
("Meta property parser will only run two times."). Only the property name of
the header is used — the struct has no `is_array` field. -/
def long_property : P LongProperty :=
  pmap (pand (primitive_property "Long".data)
      (foldManyMN0 2 long_property_meta (fun acc m => acc ++ [m]) []))
    (fun x => x.2.foldl applyLongMeta ⟨x.1.1, none, none⟩)

/-! ## `src/parser/property/integer_property.rs` -/

/-- `IntegerDomainValidator` (`i32` bounds). -/
structure IntegerDomainValidator where
  lower : Option Int
  upper : Option Int
deriving Repr, DecidableEq

/-- `IntegerProperty`: carries `is_optional` (but no `is_array`). -/
structure IntegerProperty where
  name : Input
  default_value : Option Int
  domain_validator : Option IntegerDomainValidator
  is_optional : Bool
deriving Repr, DecidableEq

/-- `IntegerMetaProperty`. -/
inductive IntegerMetaProperty where
  | defaultV : Int → IntegerMetaProperty
  | domainV : IntegerDomainValidator → IntegerMetaProperty
  | optionalF : IntegerMetaProperty
deriving Repr, DecidableEq

/-- `integer_default_value`: `preceded(default =, integer_value)`. -/
def integer_default_value : P Int := ppreceded default_prefix integer_value

/-- `integer_domain_validator`: `ranged_value(keywords::range, integer_value)`. -/
def integer_domain_validator : P IntegerDomainValidator :=
  pmap (ranged_value "range".data integer_value) (fun r => ⟨r.start, r.stop⟩)

/-- The `property_meta` alternation of `integer_property`:
`alt((domain, default, optional))`. -/
def integer_property_meta : P IntegerMetaProperty :=
  palt (pmap (ppreceded pspace1 integer_domain_validator) .domainV)
    (palt (pmap (ppreceded pspace1 integer_default_value) .defaultV)
      (pvalue .optionalF (ppreceded pspace1 (ptag "optional".data))))

/-- The assignment loop of `integer_property`. -/
def applyIntegerMeta (p : IntegerProperty) : IntegerMetaProperty → IntegerProperty
  | .defaultV x => { p with default_value := some x }
  | .domainV x => { p with domain_validator := some x }
  | .optionalF => { p with is_optional := true }

/-- `integer_property`: header then `fold_many_m_n(0, 3, property_meta, ...)`. -/
def integer_property : P IntegerProperty :=
  pmap (pand (primitive_property "Integer".data)
      (foldManyMN0 3 integer_property_meta (fun acc m => acc ++ [m]) []))
    (fun x => x.2.foldl applyIntegerMeta ⟨x.1.1, none, none, false⟩)

/-! ## `src/parser/property/double_property.rs` -/

/-- `DoubleDomainValidator` (`f64` bounds, kept as literal text here). -/
structure DoubleDomainValidator where
  lower : Option Input
  upper : Option Input
deriving Repr, DecidableEq

/-- `DoubleProperty` (the `f64` default kept as the matched literal text). -/
structure DoubleProperty where
  class_name : Input
  name : Input
  is_optional : Bool
  is_array : Bool
  default_value : Option Input
  domain_validator : Option DoubleDomainValidator
deriving Repr, DecidableEq

/-- `DoubleMetaProperty`. -/
inductive DoubleMetaProperty where
  | defaultV : Input → DoubleMetaProperty
  | domainV : DoubleDomainValidator → DoubleMetaProperty
  | optionalF : DoubleMetaProperty
deriving Repr, DecidableEq

/-- `double_default_value`: `preceded(default =, double_value)`. -/
def double_default_value : P Input := ppreceded default_prefix double_value

/-- `double_domain_validator`: `ranged_value(keywords::range, double_value)`. -/
def double_domain_validator : P DoubleDomainValidator :=
  pmap (ranged_value "range".data double_value) (fun r => ⟨r.start, r.stop⟩)

/-- The `property_meta` alternation of `double_property`:
`alt((domain, default, optional))`. -/
def double_property_meta : P DoubleMetaProperty :=
  palt (pmap (ppreceded pspace1 double_domain_validator) .domainV)
    (palt (pmap (ppreceded pspace1 double_default_value) .defaultV)
      (pvalue .optionalF (ppreceded pspace1 (ptag "optional".data))))

/-- The assignment loop of `double_property`. -/
def applyDoubleMeta (p : DoubleProperty) : DoubleMetaProperty → DoubleProperty
  | .defaultV x => { p with default_value := some x }
  | .domainV x => { p with domain_validator := some x }
  | .optionalF => { p with is_optional := true }

/-- `double_property`: header then `fold_many_m_n(0, 3, property_meta, ...)`
("Meta property parser will only run three times."). -/
def double_property : P DoubleProperty :=
  pmap (pand (primitive_property "Double".data)
      (foldManyMN0 3 double_property_meta (fun acc m => acc ++ [m]) []))
    (fun x =>
      x.2.foldl applyDoubleMeta ⟨"DoubleProperty".data, x.1.1, false, x.1.2, none, none⟩)

/-! ## `src/parser/common/datetime.rs`

Every sub-parser of this module is wrapped in `recognize` and returns the
matched slice, so it is embedded as a recognizer returning the number of
consumed characters; `datetime_value` then splits the input at that count. -/

/-- A recognizer: from remaining input to the number of consumed characters. -/
abbrev R : Type := Input → Option Nat

/-- `char(c)` as a recognizer. -/
def rchar (c : Char) : R := fun s =>
  match s with
  | [] => none
  | x :: _ => if x = c then some 1 else none

/-- `one_of(cs)` as a recognizer. -/
def roneOf (cs : Input) : R := fun s =>
  match s with
  | [] => none
  | x :: _ => if x ∈ cs then some 1 else none

/-- Sequencing (`pair`/`tuple`) of recognizers. -/
def rseq (a b : R) : R := fun s =>
  match a s with
  | none => none
  | some n =>
    match b (s.drop n) with
    | none => none
    | some m => some (n + m)

/-- `alt` of recognizers. -/
def ralt (a b : R) : R := fun s =>
  match a s with
  | none => b s
  | some n => some n

/-- `multi::count` of a recognizer. -/
def rcount (k : Nat) (a : R) : R :=
  match k with
  | 0 => fun _ => some 0
  | k + 1 => rseq a (rcount k a)

/-- The digit class `one_of("1234567890")` of the datetime module. -/
def dtDigits : Input := "1234567890".data

/-- `year`: `count(one_of("1234567890"), 4)`. -/
def year : R := rcount 4 (roneOf dtDigits)

/-- `month`: `alt((pair(char('0'), one_of("1234567890")), pair(char('1'), one_of("1234567890"))))`. -/
def month : R :=
  ralt (rseq (rchar '0') (roneOf dtDigits)) (rseq (rchar '1') (roneOf dtDigits))

/-- `day`: `alt((pair(one_of("012"), one_of("1234567890")), pair(char('3'), one_of("01"))))`. -/
def day : R :=
  ralt (rseq (roneOf "012".data) (roneOf dtDigits)) (rseq (rchar '3') (roneOf "01".data))

/-- `hour`: `alt((pair(one_of("01"), one_of("1234567890")), pair(char('2'), one_of("0123"))))`. -/
def hour : R :=
  ralt (rseq (roneOf "01".data) (roneOf dtDigits)) (rseq (rchar '2') (roneOf "0123".data))

/-- `minute`: `pair(one_of("012345"), one_of("1234567890"))`. -/
def minute : R := rseq (roneOf "012345".data) (roneOf dtDigits)

/-- `second`: same grammar as `minute`, a separate function in the source. -/
def second : R := rseq (roneOf "012345".data) (roneOf dtDigits)

/-- `year_month_day`: `tuple((year, char('-'), month, char('-'), day))`. -/
def year_month_day : R :=
  rseq year (rseq (rchar '-') (rseq month (rseq (rchar '-') day)))

/-- `hour_minute_second`: `tuple((hour, char(':'), minute, char(':'), second))`. -/
def hour_minute_second : R :=
  rseq hour (rseq (rchar ':') (rseq minute (rseq (rchar ':') second)))

/-- The nine dated alternatives of `datetime_value`, in source order: the
fractional `±HH:mm` forms (3, 2, 1 digits), the fractional `Z` forms
(3, 2, 1 digits), the plain `±HH:mm` form, the plain `Z` form, and bare
`YYYY-MM-DD`. -/
def datetime_recognizer : R :=
  let zoneHM : R := rseq (roneOf "+-".data) (rseq hour (rseq (rchar ':') minute))
  let frac (k : Nat) : R := rseq (rchar '.') (rcount k (roneOf dtDigits))
  let tSep : R := rseq year_month_day (rseq (rchar 'T') hour_minute_second)
  ralt (rseq tSep (rseq (frac 3) zoneHM))
    (ralt (rseq tSep (rseq (frac 2) zoneHM))
      (ralt (rseq tSep (rseq (frac 1) zoneHM))
        (ralt (rseq tSep (rseq (frac 3) (rchar 'Z')))
          (ralt (rseq tSep (rseq (frac 2) (rchar 'Z')))
            (ralt (rseq tSep (rseq (frac 1) (rchar 'Z')))
              (ralt (rseq tSep zoneHM)
                (ralt (rseq tSep (rchar 'Z')) year_month_day)))))))

/-- `datetime_value`: the alternation above, `recognize`d and kept verbatim
as the result string. -/
def datetime_value : P Input := fun s =>
  match datetime_recognizer s with
  | none => none
  | some n => some (s.take n, s.drop n)

/-! ## Auxiliary definitions used by theorem statements -/

/-- Strip one leading `+` sign, used to state what `positive_integer_value`
accepts. -/
def stripPlus (s : Input) : Input :=
  match s with
  | [] => []
  | c :: t => if c = '+' then t else c :: t

/-- A parser never grows its input: every success returns a remainder no
longer than what it was given. -/
def Mono (p : P α) : Prop := ∀ s a r, p s = some (a, r) → r.length ≤ s.length

/-! ## Helper lemmas -/

theorem mono_pchar (c : Char) : Mono (pchar c) := by
  intro s a r h
  cases s with
  | nil => simp [pchar] at h
  | cons x t =>
    simp only [pchar] at h
    split at h
    · cases h; simp
    · cases h

theorem mono_ptag (lit : Input) : Mono (ptag lit) := by
  intro s a r h
  simp only [ptag] at h
  split at h
  · cases h; simp
  · cases h

theorem mono_ptakeWhile (f : Char → Bool) : Mono (ptakeWhile f) := by
  intro s a r h
  simp only [ptakeWhile] at h
  cases h
  simp

theorem mono_ptakeWhile1 (f : Char → Bool) : Mono (ptakeWhile1 f) := by
  intro s a r h
  simp only [ptakeWhile1] at h
  split at h
  · cases h
  · cases h; simp

theorem mono_pmap (p : P α) (f : α → β) (hp : Mono p) : Mono (pmap p f) := by
  intro s a r h
  cases hpv : p s with
  | none => simp [pmap, hpv] at h
  | some x =>
    obtain ⟨a1, r1⟩ := x
    simp only [pmap, hpv, Option.some.injEq, Prod.mk.injEq] at h
    obtain ⟨-, h2⟩ := h
    subst h2
    exact hp s a1 r1 hpv

theorem mono_pand (p : P α) (q : P β) (hp : Mono p) (hq : Mono q) :
    Mono (pand p q) := by
  intro s a r h
  cases hpv : p s with
  | none => simp [pand, hpv] at h
  | some x =>
    obtain ⟨a1, r1⟩ := x
    cases hqv : q r1 with
    | none => simp [pand, hpv, hqv] at h
    | some y =>
      obtain ⟨b1, r2⟩ := y
      simp only [pand, hpv, hqv, Option.some.injEq, Prod.mk.injEq] at h
      obtain ⟨-, h2⟩ := h
      subst h2
      exact le_trans (hq r1 b1 r2 hqv) (hp s a1 r1 hpv)

theorem mono_palt (p q : P α) (hp : Mono p) (hq : Mono q) : Mono (palt p q) := by
  intro s a r h
  cases hpv : p s with
  | none =>
    simp only [palt, hpv] at h
    exact hq s a r h
  | some x =>
    obtain ⟨a1, r1⟩ := x
    simp only [palt, hpv, Option.some.injEq, Prod.mk.injEq] at h
    obtain ⟨-, h2⟩ := h
    subst h2
    exact hp s a1 r1 hpv

theorem mono_pvalue (b : β) (p : P α) (hp : Mono p) : Mono (pvalue b p) :=
  mono_pmap p _ hp

theorem mono_ppreceded (p : P α) (q : P β) (hp : Mono p) (hq : Mono q) :
    Mono (ppreceded p q) :=
  mono_pmap _ _ (mono_pand p q hp hq)

theorem mono_pdelimited (p : P α) (q : P β) (t : P γ) (hp : Mono p) (hq : Mono q)
    (ht : Mono t) : Mono (pdelimited p q t) :=
  mono_pmap _ _ (mono_pand p _ hp (mono_pand q t hq ht))

theorem mono_precognize (p : P α) (hp : Mono p) : Mono (precognize p) := by
  intro s a r h
  simp only [precognize] at h
  cases hpv : p s with
  | none => rw [hpv] at h; cases h
  | some x => rw [hpv] at h; cases h; exact hp s x.1 x.2 hpv

/-- `unicode_char` does not grow the input. -/
theorem mono_unicode_char : Mono unicode_char := by
  have hhex : Mono delimited_hex := by
    apply mono_ppreceded _ _ (mono_pchar _)
    apply mono_pdelimited _ _ _ (mono_pchar _) _ (mono_pchar _)
    intro s a r h
    simp only at h
    split at h
    · exact absurd h (by simp)
    · simp only [Option.some.injEq, Prod.mk.injEq] at h
      obtain ⟨-, h2⟩ := h
      subst h2
      simp
  intro s a r h
  cases hv : u32_value s with
  | none => simp [unicode_char, hv] at h
  | some x =>
    obtain ⟨n, r1⟩ := x
    simp only [unicode_char, hv] at h
    split at h
    · simp only [Option.some.injEq, Prod.mk.injEq] at h
      obtain ⟨-, h2⟩ := h
      subst h2
      exact mono_pmap _ _ hhex s n r1 hv
    · exact absurd h (by simp)

/-- Discharging a `preceded(char(c), q)` parser: with a non-growing `q`, a
success consumes at least the leading character. -/
theorem progress_ppreceded_pchar (c : Char) (q : P α) (hq : Mono q) :
    ∀ s a r, ppreceded (pchar c) q s = some (a, r) → r.length < s.length := by
  intro s a r h
  cases s with
  | nil => simp [ppreceded, pmap, pand, pchar] at h
  | cons x t =>
    by_cases hx : x = c
    · cases hqv : q t with
      | none => simp [ppreceded, pmap, pand, pchar, hx, hqv] at h
      | some y =>
        obtain ⟨b1, r1⟩ := y
        simp only [ppreceded, pmap, pand, pchar, hx, if_pos, hqv, Option.some.injEq,
          Prod.mk.injEq] at h
        obtain ⟨-, h2⟩ := h
        subst h2
        have := hq t b1 r1 hqv
        simp only [List.length_cons]
        omega
    · simp [ppreceded, pmap, pand, pchar, hx] at h

/-- The escape alternatives following the backslash do not grow the input. -/
theorem mono_escape_alternatives : Mono (palt unicode_char
    (palt (pvalue '\n' (pchar 'n'))
      (palt (pvalue '\r' (pchar 'r'))
        (palt (pvalue '\t' (pchar 't'))
          (palt (pvalue (Char.ofNat 8) (pchar 'b'))
            (palt (pvalue (Char.ofNat 12) (pchar 'f'))
              (palt (pvalue bslash (pchar bslash))
                (palt (pvalue '/' (pchar '/'))
                  (palt (pvalue dquote (pchar dquote))
                    (pvalue squote (pchar squote))))))))))) := by
  refine mono_palt _ _ mono_unicode_char ?_
  refine mono_palt _ _ (mono_pvalue _ _ (mono_pchar _)) ?_
  refine mono_palt _ _ (mono_pvalue _ _ (mono_pchar _)) ?_
  refine mono_palt _ _ (mono_pvalue _ _ (mono_pchar _)) ?_
  refine mono_palt _ _ (mono_pvalue _ _ (mono_pchar _)) ?_
  refine mono_palt _ _ (mono_pvalue _ _ (mono_pchar _)) ?_
  refine mono_palt _ _ (mono_pvalue _ _ (mono_pchar _)) ?_
  refine mono_palt _ _ (mono_pvalue _ _ (mono_pchar _)) ?_
  exact mono_palt _ _ (mono_pvalue _ _ (mono_pchar _)) (mono_pvalue _ _ (mono_pchar _))

/-- Every successful `escaped_char` consumes at least the backslash. -/
theorem escaped_char_progress : ∀ s c r, escaped_char s = some (c, r) → r.length < s.length :=
  progress_ppreceded_pchar bslash _ mono_escape_alternatives

/-- Every successful `escaped_whitespace` consumes at least the backslash. -/
theorem escaped_whitespace_progress :
    ∀ s w r, escaped_whitespace s = some (w, r) → r.length < s.length :=
  progress_ppreceded_pchar bslash _ (mono_ptakeWhile1 isNomMultispace)

/-- Every successful non-empty literal chunk consumes at least one character. -/
theorem pisNotStreaming_progress (bad : Input) :
    ∀ s t r, pisNotStreaming bad s = some (t, r) → r.length < s.length := by
  intro s t r h
  simp only [pisNotStreaming] at h
  split at h
  · cases h
  · split at h
    · cases h
    · rename_i hne hemp
      simp only [Option.some.injEq, Prod.mk.injEq] at h
      obtain ⟨-, h2⟩ := h
      subst h2
      have hle : (s.takeWhile (fun c => !(c ∈ bad))).length ≤ s.length :=
        (List.takeWhile_prefix (fun c => !(c ∈ bad))).length_le
      have hnz : (s.takeWhile (fun c => !(c ∈ bad))).length ≠ 0 := by
        intro h0
        simp only [List.isEmpty_eq_true] at hemp
        exact hemp (List.eq_nil_of_length_eq_zero h0)
      simp only [List.length_drop]
      omega

/-- With a strictly consuming fragment parser, the fuelled `fold_many0`
always succeeds when given more fuel than the input length. -/
theorem foldMany0Aux_isSome (p : P StringFragment)
    (hp : ∀ s f r, p s = some (f, r) → r.length < s.length) :
    ∀ fuel s acc, s.length < fuel → (foldMany0Aux p fuel acc s).isSome := by
  intro fuel
  induction fuel with
  | zero => intro s acc h; omega
  | succ n ih =>
    intro s acc h
    simp only [foldMany0Aux]
    cases hpv : p s with
    | none => simp
    | some x =>
      have hlt := hp s x.1 x.2 hpv
      simp only [hlt, if_pos]
      exact ih x.2 (pushFragment acc x.1) (by omega)

/-- A list's `takeWhile` is recovered by `take` of its length. -/
theorem take_length_takeWhile (f : Char → Bool) (l : Input) :
    l.take (l.takeWhile f).length = l.takeWhile f :=
  (List.prefix_iff_eq_take.mp (List.takeWhile_prefix f)).symm

/-- Evaluation of the `recognize(pair(char(c), digit1))`-shaped parsers on a
cons cell: the consumed slice is the character followed by the digit run. -/
theorem precognize_char_takeWhile1 (f : Char → Bool) (x : Char) (t : Input) :
    precognize (pand (pchar x) (ptakeWhile1 f)) (x :: t) =
      (if (t.takeWhile f).isEmpty then none
        else some (x :: t.takeWhile f, t.drop (t.takeWhile f).length)) := by
  have hle : (t.takeWhile f).length ≤ t.length := (List.takeWhile_prefix f).length_le
  by_cases hemp : (t.takeWhile f).isEmpty
  · simp [precognize, pand, pchar, ptakeWhile1, hemp]
  · have harith : (x :: t).length - (t.drop (t.takeWhile f).length).length =
        (t.takeWhile f).length + 1 := by
      simp only [List.length_cons, List.length_drop]
      omega
    simp only [precognize, pand, pchar, ptakeWhile1, hemp, if_true, if_false,
      eq_self_iff_true, ite_true, ite_false, Bool.false_eq_true]
    rw [harith, List.take_succ_cons, take_length_takeWhile]

/-- Sequencing inversion: a successful `pand` splits into a successful first
parser and a successful second parser on the intermediate remainder. -/
theorem pand_inv (p : P α) (q : P β) (s : Input) (a : α) (b : β) (r : Input)
    (h : pand p q s = some ((a, b), r)) :
    ∃ mid, p s = some (a, mid) ∧ q mid = some (b, r) := by
  cases hp : p s with
  | none => simp [pand, hp] at h
  | some x =>
    obtain ⟨a1, r1⟩ := x
    cases hq : q r1 with
    | none => simp [pand, hp, hq] at h
    | some y =>
      obtain ⟨b1, r2⟩ := y
      simp only [pand, hp, hq, Option.some.injEq, Prod.mk.injEq] at h
      obtain ⟨⟨h1, h2⟩, h3⟩ := h
      subst h1; subst h2; subst h3
      exact ⟨r1, rfl, hq⟩

/-- A `tag` with a non-empty literal strictly consumes. -/
theorem progress_ptag (lit : Input) (hne : lit ≠ []) :
    ∀ s a r, ptag lit s = some (a, r) → r.length < s.length := by
  intro s a r h
  simp only [ptag] at h
  split at h
  · rename_i hp
    simp only [Option.some.injEq, Prod.mk.injEq] at h
    obtain ⟨-, h2⟩ := h
    subst h2
    have hlen := (List.isPrefixOf_iff_prefix.mp hp).length_le
    have : lit.length ≠ 0 := by
      intro h0
      exact hne (List.eq_nil_of_length_eq_zero h0)
    simp only [List.length_drop]
    omega
  · cases h

/-- A one-or-more character-class parser strictly consumes. -/
theorem progress_ptakeWhile1 (f : Char → Bool) :
    ∀ s a r, ptakeWhile1 f s = some (a, r) → r.length < s.length := by
  intro s a r h
  simp only [ptakeWhile1] at h
  split at h
  · cases h
  · rename_i hemp
    simp only [Option.some.injEq, Prod.mk.injEq] at h
    obtain ⟨-, h2⟩ := h
    subst h2
    have hle : (s.takeWhile f).length ≤ s.length := (List.takeWhile_prefix f).length_le
    have hnz : (s.takeWhile f).length ≠ 0 := by
      intro h0
      simp only [List.isEmpty_eq_true] at hemp
      exact hemp (List.eq_nil_of_length_eq_zero h0)
    simp only [List.length_drop]
    omega

/-- Strictness of a sequence whose first member strictly consumes and whose
second does not grow the input. -/
theorem progress_pand_left (p : P α) (q : P β)
    (hp : ∀ s a r, p s = some (a, r) → r.length < s.length) (hq : Mono q) :
    ∀ s a r, pand p q s = some (a, r) → r.length < s.length := by
  intro s a r h
  obtain ⟨a1, b1⟩ := a
  obtain ⟨mid, h1, h2⟩ := pand_inv p q s a1 b1 r h
  exact lt_of_le_of_lt (hq mid b1 r h2) (hp s a1 mid h1)

/-- Strictness of an alternation of strict parsers. -/
theorem progress_palt (p q : P α)
    (hp : ∀ s a r, p s = some (a, r) → r.length < s.length)
    (hq : ∀ s a r, q s = some (a, r) → r.length < s.length) :
    ∀ s a r, palt p q s = some (a, r) → r.length < s.length := by
  intro s a r h
  cases hpv : p s with
  | none =>
    simp only [palt, hpv] at h
    exact hq s a r h
  | some x =>
    obtain ⟨a1, r1⟩ := x
    simp only [palt, hpv, Option.some.injEq, Prod.mk.injEq] at h
    obtain ⟨-, h2⟩ := h
    subst h2
    exact hp s a1 r1 hpv

/-- `not(p)` consumes nothing. -/
theorem mono_pnot (p : P α) : Mono (pnot p) := by
  intro s a r h
  simp only [pnot] at h
  split at h
  · simp only [Option.some.injEq, Prod.mk.injEq] at h
    obtain ⟨-, h2⟩ := h
    subst h2
    exact le_refl _
  · cases h

/-- A `recognize` over a strictly consuming parser returns a non-empty slice. -/
theorem precognize_ne_nil (p : P α)
    (hp : ∀ s a r, p s = some (a, r) → r.length < s.length) :
    ∀ s lab r, precognize p s = some (lab, r) → lab ≠ [] := by
  intro s lab r h
  cases hpv : p s with
  | none => simp [precognize, hpv] at h
  | some x =>
    obtain ⟨a1, r1⟩ := x
    simp only [precognize, hpv, Option.some.injEq, Prod.mk.injEq] at h
    obtain ⟨h1, h2⟩ := h
    subst h1; subst h2
    have hlt := hp s a1 r1 hpv
    intro hnil
    have := congrArg List.length hnil
    simp only [List.length_take, List.length_nil] at this
    omega

/-- The `leading_no_zero` alternation strictly consumes. -/
theorem progress_leading_no_zero :
    ∀ s a r, leading_no_zero s = some (a, r) → r.length < s.length := by
  have h1 : ∀ c : Char, ∀ s a r, ptag [c] s = some (a, r) → r.length < s.length :=
    fun c => progress_ptag [c] (by simp)
  unfold leading_no_zero
  refine progress_palt _ _ (h1 '1') ?_
  refine progress_palt _ _ (h1 '2') ?_
  refine progress_palt _ _ (h1 '3') ?_
  refine progress_palt _ _ (h1 '4') ?_
  refine progress_palt _ _ (h1 '5') ?_
  refine progress_palt _ _ (h1 '6') ?_
  refine progress_palt _ _ (h1 '7') ?_
  refine progress_palt _ _ (h1 '8') ?_
  refine progress_palt _ _ (h1 '9') ?_
  refine progress_palt _ _ (h1 '-') ?_
  exact progress_palt _ _ (h1 '.') (progress_ptakeWhile1 isAsciiAlpha)

/-- A pre-release label produced by the `combined` alternation is non-empty. -/
theorem pre_release_combined_ne_nil :
    ∀ s lab r, pre_release_combined s = some (lab, r) → lab ≠ [] := by
  intro s lab r h
  have hb1 := precognize_ne_nil (pand leading_no_zero pre_release_allowed)
    (progress_pand_left _ _ progress_leading_no_zero (mono_ptakeWhile _))
  have hb2 := precognize_ne_nil (pand leading_single_zero pre_release_allowed)
    (progress_pand_left _ _
      (progress_pand_left _ _ (progress_ptag "0".data (by simp)) (mono_pnot _))
      (mono_ptakeWhile _))
  cases hv : precognize (pand leading_no_zero pre_release_allowed) s with
  | none =>
    simp only [pre_release_combined, palt, hv] at h
    exact hb2 s lab r h
  | some x =>
    obtain ⟨a1, r1⟩ := x
    simp only [pre_release_combined, palt, hv, Option.some.injEq, Prod.mk.injEq] at h
    obtain ⟨h1, -⟩ := h
    subst h1
    exact hb1 s a1 r1 hv

/-- A label returned by `pre_release_parser` is non-empty (it starts with a
mandatory leading alternative). -/
theorem pre_release_ne_nil : ∀ s lab r, pre_release s = some (lab, r) → lab ≠ [] := by
  intro s lab r h
  simp only [pre_release, ppreceded, pmap] at h
  cases hv : pand (ptag "-".data) pre_release_combined s with
  | none => rw [hv] at h; cases h
  | some x =>
    obtain ⟨⟨t1, lab1⟩, r1⟩ := x
    rw [hv] at h
    simp only [Option.some.injEq, Prod.mk.injEq] at h
    obtain ⟨h1, h2⟩ := h
    subst h1; subst h2
    obtain ⟨mid, -, hcomb⟩ := pand_inv _ _ s t1 lab1 r1 hv
    exact pre_release_combined_ne_nil mid lab1 r1 hcomb

/-- Last-occurrence characterization of the `string_property` metaproperty
fold: the default value of the folded property is the last `Default` seen. -/
theorem foldl_string_default (ms : List StringMetaProperty) (p : StringProperty) :
    (ms.foldl applyStringMeta p).default_value =
      ms.foldl (fun acc m => match m with | .defaultV v => some v | _ => acc)
        p.default_value := by
  induction ms generalizing p with
  | nil => rfl
  | cons m t ih =>
    simp only [List.foldl]
    rw [ih]
    cases m <;> rfl

/-- Last-occurrence characterization for the regex validator. -/
theorem foldl_string_regex (ms : List StringMetaProperty) (p : StringProperty) :
    (ms.foldl applyStringMeta p).regex_validator =
      ms.foldl (fun acc m => match m with | .regexV v => some v | _ => acc)
        p.regex_validator := by
  induction ms generalizing p with
  | nil => rfl
  | cons m t ih =>
    simp only [List.foldl]
    rw [ih]
    cases m <;> rfl

/-- Last-occurrence characterization for the length validator. -/
theorem foldl_string_length (ms : List StringMetaProperty) (p : StringProperty) :
    (ms.foldl applyStringMeta p).length_validator =
      ms.foldl (fun acc m => match m with | .lengthV v => some v | _ => acc)
        p.length_validator := by
  induction ms generalizing p with
  | nil => rfl
  | cons m t ih =>
    simp only [List.foldl]
    rw [ih]
    cases m <;> rfl

/-- The optional flag after the fold records whether `Optional` occurred. -/
theorem foldl_string_optional (ms : List StringMetaProperty) (p : StringProperty) :
    (ms.foldl applyStringMeta p).is_optional =
      ms.foldl (fun acc m => match m with | .optionalF => true | _ => acc)
        p.is_optional := by
  induction ms generalizing p with
  | nil => rfl
  | cons m t ih =>
    simp only [List.foldl]
    rw [ih]
    cases m <;> rfl

/-- Last-occurrence characterization for the boolean default. -/
theorem foldl_boolean_default (ms : List BooleanMetaProperty) (p : BooleanProperty) :
    (ms.foldl applyBooleanMeta p).default_value =
      ms.foldl (fun acc m => match m with | .defaultV v => some v | _ => acc)
        p.default_value := by
  induction ms generalizing p with
  | nil => rfl
  | cons m t ih =>
    simp only [List.foldl]
    rw [ih]
    cases m <;> rfl

/-- The boolean optional flag records whether `Optional` occurred. -/
theorem foldl_boolean_optional (ms : List BooleanMetaProperty) (p : BooleanProperty) :
    (ms.foldl applyBooleanMeta p).is_optional =
      ms.foldl (fun acc m => match m with | .optionalF => true | _ => acc)
        p.is_optional := by
  induction ms generalizing p with
  | nil => rfl
  | cons m t ih =>
    simp only [List.foldl]
    rw [ih]
    cases m <;> rfl

/-- Last-occurrence characterization for the double default. -/
theorem foldl_double_default (ms : List DoubleMetaProperty) (p : DoubleProperty) :
    (ms.foldl applyDoubleMeta p).default_value =
      ms.foldl (fun acc m => match m with | .defaultV v => some v | _ => acc)
        p.default_value := by
  induction ms generalizing p with
  | nil => rfl
  | cons m t ih =>
    simp only [List.foldl]
    rw [ih]
    cases m <;> rfl

/-- Last-occurrence characterization for the double range validator. -/
theorem foldl_double_domain (ms : List DoubleMetaProperty) (p : DoubleProperty) :
    (ms.foldl applyDoubleMeta p).domain_validator =
      ms.foldl (fun acc m => match m with | .domainV v => some v | _ => acc)
        p.domain_validator := by
  induction ms generalizing p with
  | nil => rfl
  | cons m t ih =>
    simp only [List.foldl]
    rw [ih]
    cases m <;> rfl

/-- The double optional flag records whether `Optional` occurred. -/
theorem foldl_double_optional (ms : List DoubleMetaProperty) (p : DoubleProperty) :
    (ms.foldl applyDoubleMeta p).is_optional =
      ms.foldl (fun acc m => match m with | .optionalF => true | _ => acc)
        p.is_optional := by
  induction ms generalizing p with
  | nil => rfl
  | cons m t ih =>
    simp only [List.foldl]
    rw [ih]
    cases m <;> rfl

/-- Strictness is preserved by `map`. -/
theorem progress_pmap (p : P α) (g : α → β)
    (hp : ∀ s a r, p s = some (a, r) → r.length < s.length) :
    ∀ s b r, pmap p g s = some (b, r) → r.length < s.length := by
  intro s b r h
  cases hpv : p s with
  | none => simp [pmap, hpv] at h
  | some x =>
    obtain ⟨a1, r1⟩ := x
    simp only [pmap, hpv, Option.some.injEq, Prod.mk.injEq] at h
    obtain ⟨-, h2⟩ := h
    subst h2
    exact hp s a1 r1 hpv

/-- When `version_parser` succeeds without a pre-release label, the `eof`
alternative fired, so nothing of the input remains. -/
theorem version_value_no_pre_inv :
    ∀ s ver r, version_value s = some (.version ver, r) → r = [] := by
  intro s ver r h
  cases hv : pand version_number (palt pre_release peofStr) s with
  | none => simp [version_value, hv] at h
  | some x =>
    obtain ⟨⟨v1, pre⟩, r1⟩ := x
    simp only [version_value, hv] at h
    split at h
    · rename_i hlen
      simp only [Option.some.injEq, Prod.mk.injEq, ModelVersion.version.injEq] at h
      obtain ⟨-, h2⟩ := h
      subst h2
      obtain ⟨mid, -, hpal⟩ := pand_inv _ _ s v1 pre r1 hv
      cases hpre : pre_release mid with
      | some y =>
        obtain ⟨lab, r2⟩ := y
        simp only [palt, hpre, Option.some.injEq, Prod.mk.injEq] at hpal
        obtain ⟨hp1, -⟩ := hpal
        subst hp1
        exact absurd (List.eq_nil_of_length_eq_zero hlen)
          (pre_release_ne_nil mid lab r2 hpre)
      | none =>
        simp only [palt, hpre] at hpal
        cases mid with
        | nil =>
          simp only [peofStr, Option.some.injEq, Prod.mk.injEq] at hpal
          exact hpal.2.symm
        | cons c t => simp [peofStr] at hpal
    · simp at h

/-- Character-level acceptance of `month` on a two-character head: the leading
character is `0` or `1` and the second any digit — so `00` through `19`. -/
theorem month_chars (c1 c2 : Char) (r : Input) :
    (month (c1 :: c2 :: r)).isSome ↔ ((c1 = '0' ∨ c1 = '1') ∧ c2 ∈ dtDigits) := by
  by_cases h0 : c1 = '0' <;> by_cases h1 : c1 = '1' <;> by_cases h2 : c2 ∈ dtDigits <;>
    simp [month, ralt, rseq, rchar, roneOf, h0, h1, h2]

/-- Character-level acceptance of `day`: `00`–`29` or `30`–`31`. -/
theorem day_chars (c1 c2 : Char) (r : Input) :
    (day (c1 :: c2 :: r)).isSome ↔
      ((c1 ∈ "012".data ∧ c2 ∈ dtDigits) ∨ (c1 = '3' ∧ c2 ∈ "01".data)) := by
  by_cases h0 : c1 ∈ "012".data <;> by_cases h1 : c1 = '3' <;>
    by_cases h2 : c2 ∈ dtDigits <;> by_cases h3 : c2 ∈ "01".data <;>
      simp [day, ralt, rseq, rchar, roneOf, h0, h1, h2, h3]

/-- Character-level acceptance of `hour`: `00`–`19` or `20`–`23`. -/
theorem hour_chars (c1 c2 : Char) (r : Input) :
    (hour (c1 :: c2 :: r)).isSome ↔
      ((c1 ∈ "01".data ∧ c2 ∈ dtDigits) ∨ (c1 = '2' ∧ c2 ∈ "0123".data)) := by
  by_cases h0 : c1 ∈ "01".data <;> by_cases h1 : c1 = '2' <;>
    by_cases h2 : c2 ∈ dtDigits <;> by_cases h3 : c2 ∈ "0123".data <;>
      simp [hour, ralt, rseq, rchar, roneOf, h0, h1, h2, h3]

/-- Character-level acceptance of `minute`: `00`–`59`. -/
theorem minute_chars (c1 c2 : Char) (r : Input) :
    (minute (c1 :: c2 :: r)).isSome ↔ (c1 ∈ "012345".data ∧ c2 ∈ dtDigits) := by
  by_cases h0 : c1 ∈ "012345".data <;> by_cases h2 : c2 ∈ dtDigits <;>
    simp [minute, rseq, roneOf, h0, h2]

/-- Character-level acceptance of `second`: `00`–`59`. -/
theorem second_chars (c1 c2 : Char) (r : Input) :
    (second (c1 :: c2 :: r)).isSome ↔ (c1 ∈ "012345".data ∧ c2 ∈ dtDigits) := by
  by_cases h0 : c1 ∈ "012345".data <;> by_cases h2 : c2 ∈ dtDigits <;>
    simp [second, rseq, roneOf, h0, h2]

/-- `datetime_value` returns the consumed text verbatim: result and remainder
concatenate back to the input. -/
theorem datetime_verbatim : ∀ s v r, datetime_value s = some (v, r) → v ++ r = s := by
  intro s v r h
  cases hv : datetime_recognizer s with
  | none => simp [datetime_value, hv] at h
  | some n =>
    simp only [datetime_value, hv, Option.some.injEq, Prod.mk.injEq] at h
    obtain ⟨h1, h2⟩ := h
    subst h1; subst h2
    exact List.take_append_drop n s

/-- Full acceptance characterization of `positive_integer_value`: after an
optional leading `+`, there must be at least one digit, and the maximal digit
run must fit in `i32`. -/
theorem positive_integer_value_iff (s : Input) :
    (positive_integer_value s).isSome ↔
      ((stripPlus s).takeWhile isAsciiDigit ≠ [] ∧
        natOfDigits ((stripPlus s).takeWhile isAsciiDigit) ≤ 2147483647) := by
  have hb : ∀ n : Nat, ((n : Int) ≤ 2 ^ 31 - 1) ↔ n ≤ 2147483647 := by
    intro n
    rw [show ((2 : Int) ^ 31 - 1) = 2147483647 from by norm_num]
    omega
  cases s with
  | nil => decide
  | cons c t =>
    by_cases hc : c = '+'
    · subst hc
      have hplus := precognize_char_takeWhile1 isAsciiDigit '+' t
      have hstrip : stripPlus ('+' :: t) = t := by simp [stripPlus]
      rw [hstrip]
      by_cases hemp : (t.takeWhile isAsciiDigit).isEmpty
      · have htw : t.takeWhile isAsciiDigit = [] := List.isEmpty_eq_true.mp hemp
        have hpd : isAsciiDigit '+' = false := by decide
        have hfail2 : ptakeWhile1 isAsciiDigit ('+' :: t) = none := by
          simp [ptakeWhile1, List.takeWhile_cons, hpd]
        simp [positive_integer_value, positive_decimal_value, palt, pdigit1, hplus, hemp,
          hfail2, htw]
      · have hne : t.takeWhile isAsciiDigit ≠ [] := by
          intro h0
          simp [h0] at hemp
        have hpdv : positive_decimal_value ('+' :: t) =
            some ('+' :: t.takeWhile isAsciiDigit,
              t.drop (t.takeWhile isAsciiDigit).length) := by
          simp only [positive_decimal_value, palt, pdigit1]
          rw [hplus, if_neg hemp]
        have hio : intOfDecimal ('+' :: t.takeWhile isAsciiDigit) =
            (natOfDigits (t.takeWhile isAsciiDigit) : Int) := by
          simp [intOfDecimal]
        rw [show positive_integer_value ('+' :: t) =
            (if intOfDecimal ('+' :: t.takeWhile isAsciiDigit) ≤ 2 ^ 31 - 1
              then some (intOfDecimal ('+' :: t.takeWhile isAsciiDigit),
                t.drop (t.takeWhile isAsciiDigit).length)
              else none) from by simp only [positive_integer_value, hpdv]]
        rw [hio]
        by_cases hle : natOfDigits (t.takeWhile isAsciiDigit) ≤ 2147483647
        · simp [if_pos ((hb _).mpr hle), hne, hle]
        · have hlt : ¬((natOfDigits (t.takeWhile isAsciiDigit) : Int) ≤ 2 ^ 31 - 1) :=
            fun hh => hle ((hb _).mp hh)
          simp [if_neg hlt, hle]
    · have hstrip : stripPlus (c :: t) = c :: t := by simp [stripPlus, hc]
      have hfail : precognize (pand (pchar '+') (ptakeWhile1 isAsciiDigit)) (c :: t) =
          none := by
        simp [precognize, pand, pchar, hc]
      rw [hstrip]
      by_cases hd : isAsciiDigit c
      · have htw : (c :: t).takeWhile isAsciiDigit = c :: t.takeWhile isAsciiDigit := by
          simp [List.takeWhile, hd]
        have hcm : ¬c = '-' := by
          intro h0
          rw [h0] at hd
          exact absurd hd (by decide)
        have hpdv : positive_decimal_value (c :: t) =
            some (c :: t.takeWhile isAsciiDigit,
              (c :: t).drop ((c :: t).takeWhile isAsciiDigit).length) := by
          simp only [positive_decimal_value, palt, hfail, pdigit1, ptakeWhile1, htw]
          simp
        have hio : intOfDecimal (c :: t.takeWhile isAsciiDigit) =
            (natOfDigits (c :: t.takeWhile isAsciiDigit) : Int) := by
          simp [intOfDecimal, hcm, hc]
        rw [show positive_integer_value (c :: t) =
            (if intOfDecimal (c :: t.takeWhile isAsciiDigit) ≤ 2 ^ 31 - 1
              then some (intOfDecimal (c :: t.takeWhile isAsciiDigit),
                (c :: t).drop ((c :: t).takeWhile isAsciiDigit).length)
              else none) from by simp only [positive_integer_value, hpdv]]
        rw [hio, htw]
        by_cases hle : natOfDigits (c :: t.takeWhile isAsciiDigit) ≤ 2147483647
        · simp [if_pos ((hb _).mpr hle), hle]
        · have hlt : ¬((natOfDigits (c :: t.takeWhile isAsciiDigit) : Int) ≤ 2 ^ 31 - 1) :=
            fun hh => hle ((hb _).mp hh)
          simp [if_neg hlt, hle]
      · have htw : (c :: t).takeWhile isAsciiDigit = [] := by
          simp [List.takeWhile, hd]
        simp [positive_integer_value, positive_decimal_value, palt, hfail, pdigit1,
          ptakeWhile1, htw]

/-! ## Claim theorems -/

/-- C1: evaluation of `fqn_parser` on fully qualified names with a dotted
pre-release suffix. The spec's worked example `test@12.13.14-pre.0.1.bar123`
does parse to pre-release `pre.0.1` and type name `bar123` (first conjunct);
but the scan does not pick the *last* `.`-separated token in general: it stops
at the first dot that is followed by a letter-initial token, so
`test@1.0.0-pre.abc.Bar` parses to pre-release `pre.abc` and type name `abc`,
silently dropping `.Bar`, instead of pre-release `pre.abc` with type name
`Bar` (second conjunct) — contradicting the function's own "pick up the last
dot delimited bit" comment. -/
theorem fqn_first_dot_token_bug :
    fqn "test@12.13.14-pre.0.1.bar123".data =
      some (⟨"test".data, .versionWithRelease ⟨12, 13, 14⟩ "pre.0.1".data,
        "bar123".data⟩, [])
    ∧ fqn "test@1.0.0-pre.abc.Bar".data =
      some (⟨"test".data, .versionWithRelease ⟨1, 0, 0⟩ "pre.abc".data,
        "abc".data⟩, []) :=
  ⟨rfl, rfl⟩

/-- C2: evaluation of `pre_release_parser` at the leading-zero boundary. The
parser accepts `"-01"` (returning label `"01"`), although its own doc comment
and semver rule say multi-digit numeric identifiers must not have a leading
zero; it does reject `"-001"` (a zero followed by another zero) and accepts a
single leading zero as in `"-0.3.7"`. -/
theorem pre_release_leading_zero_bug :
    pre_release "-01".data = some ("01".data, [])
    ∧ pre_release "-001".data = none
    ∧ pre_release "-0.3.7".data = some ("0.3.7".data, []) :=
  ⟨rfl, rfl, rfl⟩

/-- C3: duplicate metaproperties parse successfully and the last occurrence
wins. Concretely, a string property with two `default=` metaproperties keeps
only the second, a duplicated `optional` still yields `is_optional = true`,
and a boolean property with `default=true default=false` keeps `false`; in
general, the folded property's fields are exactly the last occurrence of each
metaproperty kind in the consumed list (earlier occurrences leave no trace). -/
theorem duplicate_metaproperty_last_wins :
    string_property "o String foo default=\"a\" default=\"b\"".data =
      some (⟨"StringProperty".data, "foo".data, false, false, some "b".data,
        none, none⟩, [])
    ∧ string_property "o String foo optional optional".data =
      some (⟨"StringProperty".data, "foo".data, true, false, none, none, none⟩, [])
    ∧ boolean_property "o Boolean baz default=true default=false".data =
      some (⟨"BooleanProperty".data, "baz".data, false, false, some false⟩, [])
    ∧ (∀ (ms : List StringMetaProperty) (p : StringProperty),
        (ms.foldl applyStringMeta p).default_value =
          ms.foldl (fun acc m => match m with | .defaultV v => some v | _ => acc)
            p.default_value)
    ∧ (∀ (ms : List StringMetaProperty) (p : StringProperty),
        (ms.foldl applyStringMeta p).regex_validator =
          ms.foldl (fun acc m => match m with | .regexV v => some v | _ => acc)
            p.regex_validator)
    ∧ (∀ (ms : List StringMetaProperty) (p : StringProperty),
        (ms.foldl applyStringMeta p).length_validator =
          ms.foldl (fun acc m => match m with | .lengthV v => some v | _ => acc)
            p.length_validator)
    ∧ (∀ (ms : List StringMetaProperty) (p : StringProperty),
        (ms.foldl applyStringMeta p).is_optional =
          ms.foldl (fun acc m => match m with | .optionalF => true | _ => acc)
            p.is_optional)
    ∧ (∀ (ms : List BooleanMetaProperty) (p : BooleanProperty),
        (ms.foldl applyBooleanMeta p).default_value =
          ms.foldl (fun acc m => match m with | .defaultV v => some v | _ => acc)
            p.default_value)
    ∧ (∀ (ms : List BooleanMetaProperty) (p : BooleanProperty),
        (ms.foldl applyBooleanMeta p).is_optional =
          ms.foldl (fun acc m => match m with | .optionalF => true | _ => acc)
            p.is_optional) :=
  ⟨rfl, rfl, rfl, foldl_string_default, foldl_string_regex, foldl_string_length,
    foldl_string_optional, foldl_boolean_default, foldl_boolean_optional⟩

/-- C4 counterexample: the metaproperty loop is bounded per type
(`fold_many_m_n(0, 3, ...)` for `double_property`), so a line with four valid
metaproperties does *not* have all of them consumed: the fourth ` optional` is
left unconsumed, refuting "for every n ≥ 0 ... consumes all n metaproperties". -/
theorem metaproperty_cap_counterexample :
    double_property "o Double foo optional optional optional optional".data =
      some (⟨"DoubleProperty".data, "foo".data, true, false, none, none⟩,
        " optional".data) :=
  rfl

/-- C4 (amended): up to the per-type bound (4 for String, 3 for Double), the
metaproperties are consumed in any order and folded into the result — the
spec's `range`/`default` example gives the same property in either order, a
string property consumes four `optional`s in full — and in general each field
of the folded result is determined by the last occurrence of its kind alone,
so the relative order of distinct metaproperty kinds cannot affect the value. -/
theorem metaproperty_fold_upto_cap :
    double_property "o Double baz range=[,100.4] default=-42.0e3".data =
      some (⟨"DoubleProperty".data, "baz".data, false, false, some "-42.0e3".data,
        some ⟨none, some "100.4".data⟩⟩, [])
    ∧ double_property "o Double baz default=-42.0e3 range=[,100.4]".data =
      some (⟨"DoubleProperty".data, "baz".data, false, false, some "-42.0e3".data,
        some ⟨none, some "100.4".data⟩⟩, [])
    ∧ string_property "o String foo optional optional optional optional".data =
      some (⟨"StringProperty".data, "foo".data, true, false, none, none, none⟩, [])
    ∧ (∀ (ms : List DoubleMetaProperty) (p : DoubleProperty),
        (ms.foldl applyDoubleMeta p).default_value =
          ms.foldl (fun acc m => match m with | .defaultV v => some v | _ => acc)
            p.default_value)
    ∧ (∀ (ms : List DoubleMetaProperty) (p : DoubleProperty),
        (ms.foldl applyDoubleMeta p).domain_validator =
          ms.foldl (fun acc m => match m with | .domainV v => some v | _ => acc)
            p.domain_validator)
    ∧ (∀ (ms : List DoubleMetaProperty) (p : DoubleProperty),
        (ms.foldl applyDoubleMeta p).is_optional =
          ms.foldl (fun acc m => match m with | .optionalF => true | _ => acc)
            p.is_optional) :=
  ⟨rfl, rfl, rfl, foldl_double_default, foldl_double_domain, foldl_double_optional⟩

/-- C5 counterexample: `version_parser` on `"1.0.2 "` — version number not
followed by a pre-release label but followed by non-version text — does *not*
succeed with remainder `" "` as claimed: the `alt((pre_release, eof))` tail
requires either a label or the exact end of input, so the parse fails. -/
theorem version_trailing_text_counterexample :
    version_value "1.0.2 ".data = none :=
  rfl

/-- C5 (amended): when no pre-release label follows, `version_parser` succeeds
only when the input ends exactly after the version number; with trailing text
(`"1.0.2 "`) it fails. With a label (`"1.0.2-pre"`) it succeeds, and in
general every success without a label has an empty remainder. -/
theorem version_requires_eof :
    version_value "1.0.2".data = some (.version ⟨1, 0, 2⟩, [])
    ∧ version_value "1.0.2-pre".data =
      some (.versionWithRelease ⟨1, 0, 2⟩ "pre".data, [])
    ∧ version_value "1.0.2 ".data = none
    ∧ (∀ s ver r, version_value s = some (.version ver, r) → r = []) :=
  ⟨rfl, rfl, rfl, version_value_no_pre_inv⟩

/-- C5 witness: the general conjunct of `version_requires_eof` applied at the
concrete input `"1.0.2"`. -/
theorem version_requires_eof_witness :
    version_value "1.0.2".data = some (.version ⟨1, 0, 2⟩, []) ∧ ([] : Input) = [] :=
  ⟨rfl, version_requires_eof.2.2.2 "1.0.2".data ⟨1, 0, 2⟩ [] rfl⟩

/-- C6 counterexample: `long_property` does not accept the `optional`
metaproperty — on `"o Long baz optional"` it succeeds but leaves
`" optional"` unconsumed, and the resulting `LongProperty` (which carries only
a name, a default and a domain validator) has no `is_optional` or `is_array`
field at all, refuting the claim that every property case carries both flags. -/
theorem long_property_optional_counterexample :
    long_property "o Long baz optional".data =
      some (⟨"baz".data, none, none⟩, " optional".data) :=
  rfl

/-- C6 (amended): `long_property` accepts the metaproperties
`default=<integer>` and `range=[lower?,upper?]` only, with `i64` bounds
(`long_value` accepts `9223372036854775807` and rejects
`9223372036854775808`); `LongProperty` carries only `name`, `default_value`
and `domain_validator`, while `IntegerProperty` additionally carries an
`is_optional` flag defaulting to `false` — neither has an `is_array` flag. -/
theorem long_integer_property_shape :
    long_property "o Long baz default=42".data =
      some (⟨"baz".data, some 42, none⟩, [])
    ∧ long_property "o Long baz range=[0,10]".data =
      some (⟨"baz".data, none, some ⟨some 0, some 10⟩⟩, [])
    ∧ long_value "9223372036854775807".data = some (9223372036854775807, [])
    ∧ long_value "9223372036854775808".data = none
    ∧ integer_property "o Integer foo".data =
      some (⟨"foo".data, none, none, false⟩, [])
    ∧ integer_property "o Integer foo optional".data =
      some (⟨"foo".data, none, none, true⟩, []) :=
  ⟨rfl, rfl, rfl, rfl, rfl, rfl⟩

/-- C7: on `"o Boolean baz default=42"` the boolean property parser succeeds
with no default value, `is_optional` false and `is_array` false, leaving
`" default=42"` unconsumed; and the boolean value grammar accepts exactly the
inputs beginning with the literals `true` or `false`, rejecting `"42"`. -/
theorem boolean_property_wrong_default_unconsumed :
    boolean_property "o Boolean baz default=42".data =
      some (⟨"BooleanProperty".data, "baz".data, false, false, none⟩,
        " default=42".data)
    ∧ (∀ s : Input, (boolean_value s).isSome =
        ("true".data.isPrefixOf s || "false".data.isPrefixOf s))
    ∧ boolean_value "42".data = none := by
  refine ⟨rfl, ?_, rfl⟩
  intro s
  by_cases h1 : "true".data.isPrefixOf s <;> by_cases h2 : "false".data.isPrefixOf s <;>
    simp [boolean_value, palt, pvalue, pmap, ptag, h1, h2]

/-- C8 counterexample: `datetime_value` accepts month `"00"` — the month
grammar is `0|1` followed by any digit including `0` — so `"2024-00-04"`
parses (verbatim, with nothing left), refuting "month 01–19 ... a date with
month \x2200\x22 is rejected". -/
theorem datetime_month_00_counterexample :
    datetime_value "2024-00-04".data = some ("2024-00-04".data, []) :=
  rfl

/-- C8 (amended): the two-character calendar fields are bounded at the
character level to month 00–19, day 00–31 (`00`–`29` or `30`–`31`), hour
00–23, minute and second 00–59; month `"19"` is accepted and `"20"` is not;
and the parsed text is preserved verbatim — result and remainder concatenate
back to the input. -/
theorem datetime_field_bounds :
    (∀ (c1 c2 : Char) (r : Input),
      (month (c1 :: c2 :: r)).isSome ↔ ((c1 = '0' ∨ c1 = '1') ∧ c2 ∈ dtDigits))
    ∧ (∀ (c1 c2 : Char) (r : Input),
      (day (c1 :: c2 :: r)).isSome ↔
        ((c1 ∈ "012".data ∧ c2 ∈ dtDigits) ∨ (c1 = '3' ∧ c2 ∈ "01".data)))
    ∧ (∀ (c1 c2 : Char) (r : Input),
      (hour (c1 :: c2 :: r)).isSome ↔
        ((c1 ∈ "01".data ∧ c2 ∈ dtDigits) ∨ (c1 = '2' ∧ c2 ∈ "0123".data)))
    ∧ (∀ (c1 c2 : Char) (r : Input),
      (minute (c1 :: c2 :: r)).isSome ↔ (c1 ∈ "012345".data ∧ c2 ∈ dtDigits))
    ∧ (∀ (c1 c2 : Char) (r : Input),
      (second (c1 :: c2 :: r)).isSome ↔ (c1 ∈ "012345".data ∧ c2 ∈ dtDigits))
    ∧ (∀ s v r, datetime_value s = some (v, r) → v ++ r = s)
    ∧ datetime_value "2024-19-04".data = some ("2024-19-04".data, [])
    ∧ datetime_value "2024-20-04".data = none :=
  ⟨month_chars, day_chars, hour_chars, minute_chars, second_chars,
    datetime_verbatim, rfl, rfl⟩

/-- C8 witness: the verbatim conjunct of `datetime_field_bounds` applied at
the concrete input `"2024-01-04"`. -/
theorem datetime_field_bounds_witness :
    "2024-01-04".data ++ ([] : Input) = "2024-01-04".data :=
  datetime_field_bounds.2.2.2.2.2.1 "2024-01-04".data "2024-01-04".data [] rfl

/-- C9 counterexample: `positive_integer_value` accepts an explicit `+` sign
(the "ExplicitlyPositiveDecimal" branch), so `"+5"` parses to `5`, refuting
"fails on every input whose numeric literal contains a sign character
('+' or '-')". -/
theorem positive_integer_plus_sign_counterexample :
    positive_integer_value "+5".data = some (5, []) :=
  rfl

/-- C9 (amended): `positive_integer_value` succeeds exactly on inputs whose
head, after an optional `+`, starts a non-empty digit run whose value is
representable as `i32` (at most 2147483647); it fails on a `-` sign and on
out-of-range values — e.g. it accepts `"2147483647"` and rejects `"-5"` and
`"2147483648"`. -/
theorem positive_integer_value_characterization :
    (∀ s : Input, (positive_integer_value s).isSome ↔
      ((stripPlus s).takeWhile isAsciiDigit ≠ [] ∧
        natOfDigits ((stripPlus s).takeWhile isAsciiDigit) ≤ 2147483647))
    ∧ positive_integer_value "2147483647".data = some (2147483647, [])
    ∧ positive_integer_value "-5".data = none
    ∧ positive_integer_value "2147483648".data = none :=
  ⟨positive_integer_value_iff, rfl, rfl, rfl⟩

/-- C10: every fragment of the quoted-string and regex-string repetition
loops consumes at least one character on success — literal chunks are
non-empty, escapes consume the backslash and more — and consequently the
`fold_many0` string builder completes successfully on every finite input
(for any set of characters requiring escape, hence for `'`, `"` and `/`). -/
theorem string_fragment_progress :
    (∀ (bad s : Input) (f : StringFragment) (r : Input),
      stringFragment bad s = some (f, r) → r.length < s.length)
    ∧ (∀ bad s : Input, (build_string bad s).isSome) := by
  have hfrag : ∀ (bad s : Input) (f : StringFragment) (r : Input),
      stringFragment bad s = some (f, r) → r.length < s.length := by
    intro bad
    refine progress_palt _ _ (progress_pmap _ _ (pisNotStreaming_progress bad)) ?_
    refine progress_palt _ _ (progress_pmap _ _ escaped_char_progress) ?_
    exact progress_pmap _ _ escaped_whitespace_progress
  refine ⟨hfrag, ?_⟩
  intro bad s
  exact foldMany0Aux_isSome _ (hfrag bad) (s.length + 1) s [] (by omega)

/-- C10 witness: the fragment-progress conjunct applied at a concrete literal
fragment of a single-quoted string, and the builder conjunct at the same
input. -/
theorem string_fragment_progress_witness :
    ("'".data.length < "ab'".data.length)
    ∧ (build_string [squote, bslash] "ab'".data).isSome :=
  ⟨string_fragment_progress.1 [squote, bslash] "ab'".data (.literal "ab".data)
      "'".data rfl,
    string_fragment_progress.2 [squote, bslash] "ab'".data⟩

end ConcertoNom
